import Mathlib

/-!
Shallow embedding of the quipslop round-orchestration core (src game module:
`shuffle`, `withRetry`, `isRealString`, `runGame`) and the server reset
handler, together with theorems checking the natural-language specification
against it.

The source is single-threaded JavaScript (Bun): interleaving with the
concurrently running HTTP handlers happens only at `await` suspension
points.  The embedding therefore threads the game state purely through the
round code and models, at every suspension point, the value of the shared
`state.generation` counter that the round code observes when it resumes
(an admin reset may have incremented it during the await).  Reads of
`state.generation` with no `await` between them observe the same value.
-/

/-- Participant identity: the source's `Model` objects (`{ id, name }`). -/
structure Model where
  id : String
  name : String
deriving DecidableEq

/-- Phase tag of a round (`"prompting" | "answering" | "voting" | "done"`). -/
inductive Phase where
  | prompting
  | answering
  | voting
  | done
deriving DecidableEq

/-- Numeric position of a phase in the declared order, used to state
monotone phase advancement. -/
def phaseIdx : Phase → Nat
  | .prompting => 0
  | .answering => 1
  | .voting => 2
  | .done => 3

/-- One unit of work (`TaskInfo` in the source): optional fields model the
`?:` members. -/
structure TaskInfo where
  model : Model
  startedAt : Nat
  finishedAt : Option Nat
  result : Option String
  error : Option String
deriving DecidableEq

/-- A vote task record (`VoteInfo` in the source). -/
structure VoteInfo where
  voter : Model
  startedAt : Nat
  finishedAt : Option Nat
  votedFor : Option Model
  error : Option Bool
deriving DecidableEq

/-- A round record (`RoundState` in the source). -/
structure RoundState where
  num : Nat
  phase : Phase
  prompter : Model
  promptTask : TaskInfo
  prompt : Option String
  contestants : Model × Model
  answerTasks : TaskInfo × TaskInfo
  votes : List VoteInfo
  scoreA : Option Nat
  scoreB : Option Nat
deriving DecidableEq

/-- The shared game state (`GameState` in the source).  `scores` models the
`Record<string, number>` standings table as a total function; a name absent
from the record reads as `0` (the source reads `scores[name] || 0`). -/
structure GameState where
  completed : List RoundState
  active : Option RoundState
  scores : String → Nat
  done : Bool
  isPaused : Bool
  generation : Nat

/-- The fixed participant pool (`MODELS` in the source; commented-out
entries omitted, exactly as the source has them). -/
def MODELS : List Model :=
  [ { id := "google/gemini-3.1-pro-preview", name := "Gemini 3.1 Pro" },
    { id := "moonshotai/kimi-k2", name := "Kimi K2" },
    { id := "deepseek/deepseek-v3.2", name := "DeepSeek 3.2" },
    { id := "openai/gpt-5.2", name := "GPT-5.2" },
    { id := "anthropic/claude-opus-4.6", name := "Opus 4.6" },
    { id := "anthropic/claude-sonnet-4.6", name := "Sonnet 4.6" },
    { id := "x-ai/grok-4.1-fast", name := "Grok 4.1" } ]

/-! ## Fisher–Yates shuffle (`shuffle` in the source)

`Math.floor(Math.random() * (i + 1))` supplies one index `j ∈ [0, i]` per
loop iteration, for `i = n-1` down to `1`; the embedding takes that stream
of random indices as an explicit argument. -/

/-- Swap of two positions (`[a[i], a[j]] = [a[j]!, a[i]!]`); out-of-range
indices leave the list unchanged (the source never goes out of range). -/
def swapElems (l : List α) (i j : Nat) : List α :=
  match l.get? i, l.get? j with
  | some a, some b => (l.set i b).set j a
  | _, _ => l

/-- The shuffle loop: `for (let i = a.length - 1; i > 0; i--)`. -/
def shuffleGo (a : List α) : Nat → List Nat → List α
  | 0, _ => a
  | _, [] => a
  | i + 1, j :: rest => shuffleGo (swapElems a (i + 1) j) i rest

/-- Fisher–Yates shuffle of a copied array, driven by the supplied stream
of random indices. -/
def shuffle (arr : List α) (js : List Nat) : List α :=
  shuffleGo arr (arr.length - 1) js

/-! ## Retry wrapper (`withRetry` in the source) -/

/-- Result of one invocation of the wrapped async operation: it either
threw (carrying the error message) or returned a value. -/
inductive AttemptResult (T : Type) where
  | threw (msg : String)
  | returned (t : T)

/-- Observable outcome of a `withRetry` call: the value returned or the
error finally thrown, the number of invocations of the operation, and the
list of backoff sleeps (milliseconds) performed between attempts. -/
structure RetryOutcome (T : Type) where
  result : Except String T
  calls : Nat
  delays : List Nat

/-- The validation-failure message recorded as `lastErr`:
`Validation failed (attempt a/r): <serialized result>`. -/
def validationMsg (attempt retries : Nat) (resultStr : String) : String :=
  "Validation failed (attempt " ++ toString attempt ++ "/" ++ toString retries
    ++ "): " ++ resultStr

/-- Models `JSON.stringify(result).slice(0, 100)` for a string result
(escape sequences inside the string are not modelled; no claim depends on
them). -/
def jsonSlice100 (s : String) : String :=
  ("\"" ++ s ++ "\"").take 100

/-- The `for (let attempt = 1; attempt <= retries; attempt++)` loop of
`withRetry`.  `remaining` is the number of loop iterations left
(`retries - attempt + 1` at entry); `fn k` is the outcome of the `k`-th
invocation of the operation; `describe` serializes a result for the
validation-failure message; `lastErr` is the current `lastErr` binding. -/
def withRetryGo (fn : Nat → AttemptResult T) (validate : T → Bool)
    (describe : T → String) (retries : Nat) :
    Nat → Nat → String → RetryOutcome T
  | 0, _, lastErr => ⟨.error lastErr, 0, []⟩
  | remaining + 1, attempt, _ =>
    match fn attempt with
    | .returned t =>
      if validate t then ⟨.ok t, 1, []⟩
      else
        let msg := validationMsg attempt retries (describe t)
        let rest := withRetryGo fn validate describe retries remaining
          (attempt + 1) msg
        ⟨rest.result, rest.calls + 1,
          (if attempt < retries then [1000 * attempt] else []) ++ rest.delays⟩
    | .threw msg =>
      let rest := withRetryGo fn validate describe retries remaining
        (attempt + 1) msg
      ⟨rest.result, rest.calls + 1,
        (if attempt < retries then [1000 * attempt] else []) ++ rest.delays⟩

/-- The retry wrapper: attempts `1..retries`; on each attempt invokes the
operation, validates a returned result, treats a validation failure like a
thrown error, and sleeps `1000 * attempt` ms between attempts (never after
the last); after exhaustion rethrows the last error.  `lastErr` starts out
as the `undefined` binding. -/
def withRetry (fn : Nat → AttemptResult T) (validate : T → Bool)
    (describe : T → String) (retries : Nat) : RetryOutcome T :=
  withRetryGo fn validate describe retries retries 1 "undefined"

/-- Length validator (`isRealString` in the source). -/
def isRealString (s : String) (minLength : Nat) : Bool :=
  minLength ≤ s.length

/-! ## Role assignment (`runGame` lines 279–283) -/

/-- The roles drawn for one round. -/
structure Roles where
  prompter : Model
  contA : Model
  contB : Model
  voters : List Model
deriving DecidableEq

/-- Default used to model the source's non-null assertions `shuffled[0]!`
etc.; never reached when the pool has at least 3 members. -/
def dummyModel : Model := { id := "", name := "" }

/-- Role assignment: shuffle the pool, take the first element as prompter,
the next two as contestants, and let the voters be the prompter together
with everything from index 3 on (`[prompter, ...shuffled.slice(3)]`). -/
def assignRoles (pool : List Model) (js : List Nat) : Roles :=
  let shuffled := shuffle pool js
  let prompter := shuffled.getD 0 dummyModel
  let contA := shuffled.getD 1 dummyModel
  let contB := shuffled.getD 2 dummyModel
  { prompter := prompter, contA := contA, contB := contB,
    voters := prompter :: shuffled.drop 3 }

/-- The fresh round record built at round start (`runGame` lines 286–297). -/
def initRound (r : Nat) (roles : Roles) (now : Nat) : RoundState :=
  { num := r
    phase := .prompting
    prompter := roles.prompter
    promptTask :=
      { model := roles.prompter, startedAt := now, finishedAt := none,
        result := none, error := none }
    prompt := none
    contestants := (roles.contA, roles.contB)
    answerTasks :=
      ({ model := roles.contA, startedAt := 0, finishedAt := none,
         result := none, error := none },
       { model := roles.contB, startedAt := 0, finishedAt := none,
         result := none, error := none })
    votes := []
    scoreA := none
    scoreB := none }

/-! ## Prompt phase settlement (`runGame` lines 307–332) -/

/-- Outcome of settling the prompt phase. -/
inductive PromptSettleResult where
  | stale
  | proceed (round : RoundState)
  | exhausted (round : RoundState)

/-- Settlement of the prompt phase once `withRetry` resolves: `gObs` is the
generation observed after the await; a mismatch with the round's snapshot
`gSnap` makes the handler `continue` without writing.  On success the
prompt is stored; on exhaustion the task gets an error marker and the round
goes straight to `done`. -/
def promptSettle (gSnap gObs : Nat) (res : Except String String) (time : Nat)
    (round : RoundState) : PromptSettleResult :=
  match res with
  | .ok prompt =>
    if gObs ≠ gSnap then .stale
    else
      .proceed
        { round with
          promptTask :=
            { round.promptTask with
              finishedAt := some time
              result := some prompt }
          prompt := some prompt }
  | .error _ =>
    if gObs ≠ gSnap then .stale
    else
      .exhausted
        { round with
          promptTask :=
            { round.promptTask with
              finishedAt := some time
              error := some "Failed after 3 attempts" }
          phase := .done }

/-! ## Vote presentation and resolution (`runGame` lines 389–408) -/

/-- Choice between the two presented answers (`"A" | "B"`,
`A` = first presented, `B` = second presented). -/
inductive Choice where
  | A
  | B
deriving DecidableEq, BEq

/-- Serialization of a choice for diagnostic messages
(`JSON.stringify` of `"A"`/`"B"`). -/
def choiceJson : Choice → String
  | .A => "\"A\""
  | .B => "\"B\""

/-- The randomized presentation order: `first`/`second` answers shown to
the voter given the per-task coin flip. -/
def presentedPair (showAFirst : Bool) (answerA answerB : String) :
    String × String :=
  if showAFirst then (answerA, answerB) else (answerB, answerA)

/-- Maps the resolved choice back to the original contestant identity
(`runGame` lines 402–408). -/
def resolveVote (showAFirst : Bool) (result : Choice)
    (contA contB : Model) : Model :=
  if showAFirst then (if result = .A then contA else contB)
  else (if result = .A then contB else contA)

/-! ## Per-task settlement code (`runGame` answer and vote closures) -/

/-- One answer-task closure (`runGame` lines 342–369).  `gStart` is the
generation observed at the initial check (line 343; equal to the value at
phase start since no await precedes it); `gSettle` the generation observed
once `withRetry` resolves — lines 353, 358 and 364 read it with no await
in between, hence observe the same value.  Returns the updated task record
and whether the closure invoked `rerender`. -/
def answerTaskRun (gSnap gStart : Nat) (attempts : Nat → AttemptResult String)
    (gSettle : Nat) (finishTime : Nat) (task : TaskInfo) : TaskInfo × Bool :=
  if gStart ≠ gSnap then (task, false)
  else
    let out := withRetry attempts (fun s => isRealString s 3) jsonSlice100 3
    let settled : Option TaskInfo :=
      match out.result with
      | .ok answer =>
        if gSettle ≠ gSnap then none
        else some { task with result := some answer }
      | .error _ =>
        if gSettle ≠ gSnap then none
        else
          some
            { task with
              error := some "Failed to answer"
              result := some "[no answer]" }
    match settled with
    | none => (task, false)
    | some t =>
      if gSettle ≠ gSnap then (t, false)
      else ({ t with finishedAt := some finishTime }, true)

/-- Environment of one vote-task closure: the coin flip, the outcomes of
the backend invocations inside `withRetry`, the generation observed at its
settlement, and the completion timestamp. -/
structure VoteEnv where
  showAFirst : Bool
  attempts : Nat → AttemptResult Choice
  gSettle : Nat
  finishTime : Nat

/-- One vote-task closure (`runGame` lines 384–423).  The presented pair is
passed to the external `callVote` backend; the resolved choice is mapped
back through `resolveVote`.  Checks at lines 399, 413 and 419 observe the
same post-await generation `ve.gSettle`. -/
def voteTaskRun (gSnap gStart : Nat) (contA contB : Model)
    (answerA answerB : String) (ve : VoteEnv) (vote : VoteInfo) :
    VoteInfo × Bool :=
  if gStart ≠ gSnap then (vote, false)
  else
    let _presented := presentedPair ve.showAFirst answerA answerB
    let out := withRetry ve.attempts (fun v => v == Choice.A || v == Choice.B)
      choiceJson 3
    let settled : Option VoteInfo :=
      match out.result with
      | .ok result =>
        if ve.gSettle ≠ gSnap then none
        else
          some
            { vote with
              finishedAt := some ve.finishTime
              votedFor :=
                some (resolveVote ve.showAFirst result contA contB) }
      | .error _ =>
        if ve.gSettle ≠ gSnap then none
        else
          some
            { vote with
              finishedAt := some ve.finishTime
              error := some true }
    match settled with
    | none => (vote, false)
    | some v =>
      if ve.gSettle ≠ gSnap then (v, false)
      else (v, true)

/-! ## Round environment and event trace -/

/-- Externally observable effects of one round: `rerender` callback
invocations and `saveRound` archive calls. -/
inductive Event where
  | rerender
  | save (round : RoundState)
deriving DecidableEq

/-- The archive calls among a list of events. -/
def saveEvents (evs : List Event) : List RoundState :=
  evs.filterMap fun e =>
    match e with
    | .save r => some r
    | .rerender => none

/-- Environment of one execution of the round loop body: the shuffle
randomness, all backend-call outcomes, the timestamps, and the generation
value observed at each await suspension point. -/
structure RoundEnv where
  js : List Nat
  startTime : Nat
  promptAttempts : Nat → AttemptResult String
  gAfterPrompt : Nat
  promptFinishTime : Nat
  answerStart : Nat
  answerAttempts : Bool → Nat → AttemptResult String
  gAnswerSettle : Bool → Nat
  answerFinishTime : Bool → Nat
  gAfterAnswers : Nat
  voteStart : Nat
  voteEnvs : Nat → VoteEnv
  gAfterVotes : Nat
  gAfterDelay : Nat

/-- Result of one round loop body execution: the game state as left by the
round's own writes, the event trace, the successive values taken by the
round record's `phase` field (creation value first), and the pair of answer
strings read at the start of the voting phase (if reached). -/
structure RoundRun where
  state : GameState
  events : List Event
  phases : List Phase
  voteInputs : Option (String × String)

/-- The answer phase (`runGame` lines 334–370): both tasks started with the
same timestamp, then each closure settled on its own record.  The two
closures write disjoint records, so serializing them loses nothing. -/
def answerPhaseRun (gSnap : Nat) (env : RoundEnv) (round : RoundState) :
    RoundState × List Event :=
  let t0 := { round.answerTasks.1 with startedAt := env.answerStart }
  let t1 := { round.answerTasks.2 with startedAt := env.answerStart }
  let s0 := answerTaskRun gSnap env.gAfterPrompt (env.answerAttempts false)
    (env.gAnswerSettle false) (env.answerFinishTime false) t0
  let s1 := answerTaskRun gSnap env.gAfterPrompt (env.answerAttempts true)
    (env.gAnswerSettle true) (env.answerFinishTime true) t1
  ({ round with phase := .answering, answerTasks := (s0.1, s1.1) },
   [Event.rerender]
     ++ (if s0.2 then [Event.rerender] else [])
     ++ (if s1.2 then [Event.rerender] else []))

/-- The voting phase (`runGame` lines 375–424): one fresh `VoteInfo` per
voter, then each closure settled on its own record. -/
def votePhaseRun (gSnap : Nat) (env : RoundEnv) (roles : Roles)
    (answerA answerB : String) (round : RoundState) :
    RoundState × List Event :=
  let votes0 := roles.voters.map fun v =>
    ({ voter := v, startedAt := env.voteStart, finishedAt := none,
       votedFor := none, error := none } : VoteInfo)
  let settled := votes0.enum.map fun p =>
    voteTaskRun gSnap env.gAfterAnswers roles.contA roles.contB
      answerA answerB (env.voteEnvs p.1) p.2
  ({ round with phase := .voting, votes := settled.map Prod.fst },
   [Event.rerender]
     ++ settled.filterMap fun p =>
          if p.2 then some Event.rerender else none)

/-- Vote tally of a settled round (`runGame` lines 430–435): abstentions
(`votedFor` unset) count toward neither side. -/
def tallyVotes (votes : List VoteInfo) (contA contB : Model) : Nat × Nat :=
  votes.foldl
    (fun acc v =>
      if v.votedFor = some contA then (acc.1 + 1, acc.2)
      else if v.votedFor = some contB then (acc.1, acc.2 + 1)
      else acc)
    (0, 0)

/-- Standings increment: `scores[name] = (scores[name] || 0) + 1`. -/
def bumpScore (scores : String → Nat) (name : String) : String → Nat :=
  fun n => if n = name then scores n + 1 else scores n

/-- Score step (`runGame` lines 429–443): per-side display scores are the
vote counts times 100, the phase becomes `done`, and the side with strictly
more votes gets one standings win (a tie changes nothing). -/
def scoreStep (scores : String → Nat) (round : RoundState) :
    (String → Nat) × RoundState :=
  let contA := round.contestants.1
  let contB := round.contestants.2
  let tally := tallyVotes round.votes contA contB
  let votesA := tally.1
  let votesB := tally.2
  let round1 :=
    { round with
      scoreA := some (votesA * 100)
      scoreB := some (votesB * 100)
      phase := .done }
  let scores1 :=
    if votesA > votesB then bumpScore scores contA.name
    else if votesB > votesA then bumpScore scores contB.name
    else scores
  (scores1, round1)

/-- One execution of the body of the `runGame` round loop (lines 269–455),
for round number `r`, from shared state `st`, under environment `env`.
`st.generation` is the `roundGeneration` snapshot taken at line 269.  The
threaded state records only the round's own writes; mutations performed
concurrently by HTTP handlers (e.g. the reset handler) are modelled solely
through the generation values the round observes. -/
def runRoundBody (st : GameState) (r : Nat) (env : RoundEnv) : RoundRun :=
  let gSnap := st.generation
  let roles := assignRoles MODELS env.js
  let round0 := initRound r roles env.startTime
  let st0 := { st with active := some round0 }
  let pOut := withRetry env.promptAttempts (fun s => isRealString s 10)
    jsonSlice100 3
  match promptSettle gSnap env.gAfterPrompt pOut.result env.promptFinishTime
      round0 with
  | .stale => ⟨st0, [Event.rerender], [Phase.prompting], none⟩
  | .exhausted round1 =>
    ⟨{ st0 with completed := st0.completed ++ [round1], active := none },
     [Event.rerender, Event.rerender], [Phase.prompting, Phase.done], none⟩
  | .proceed round1 =>
    let ap := answerPhaseRun gSnap env round1
    let round2 := ap.1
    let ev2 := [Event.rerender, Event.rerender] ++ ap.2
    if env.gAfterAnswers ≠ gSnap then
      ⟨{ st0 with active := some round2 }, ev2,
       [Phase.prompting, Phase.answering], none⟩
    else
      let answerA := round2.answerTasks.1.result.getD ""
      let answerB := round2.answerTasks.2.result.getD ""
      let vp := votePhaseRun gSnap env roles answerA answerB round2
      let round3 := vp.1
      let ev3 := ev2 ++ vp.2
      if env.gAfterVotes ≠ gSnap then
        ⟨{ st0 with active := some round3 }, ev3,
         [Phase.prompting, Phase.answering, Phase.voting],
         some (answerA, answerB)⟩
      else
        let sc := scoreStep st.scores round3
        let round4 := sc.2
        let ev4 := ev3 ++ [Event.rerender]
        if env.gAfterDelay ≠ gSnap then
          ⟨{ st0 with active := some round4, scores := sc.1 }, ev4,
           [Phase.prompting, Phase.answering, Phase.voting, Phase.done],
           some (answerA, answerB)⟩
        else
          ⟨{ st0 with
             active := none
             scores := sc.1
             completed := st0.completed ++ [round4] },
           ev4 ++ [Event.save round4, Event.rerender],
           [Phase.prompting, Phase.answering, Phase.voting, Phase.done],
           some (answerA, answerB)⟩

/-! ## Game-loop start (`runGame` lines 257–261) and server boot -/

/-- Starting round number: `completed.at(-1)` determines the resume point
(`lastCompletedRound.num + 1`), defaulting to `1`. -/
def startRoundOf (completed : List RoundState) : Nat :=
  match completed.getLast? with
  | some lastCompletedRound => lastCompletedRound.num + 1
  | none => 1

/-- Server boot (`server.ts` lines 34–51): the in-memory completed list is
seeded with the last archived round, when the archive is nonempty. -/
def initialCompleted (allRounds : List RoundState) : List RoundState :=
  match allRounds.getLast? with
  | some lastRound => [lastRound]
  | none => []

/-- The admin reset handler's state mutations (`server.ts` lines 442–449). -/
def adminReset (st : GameState) : GameState :=
  { st with
    completed := []
    active := none
    scores := fun _ => 0
    done := false
    isPaused := true
    generation := st.generation + 1 }

/-! ## Helper lemmas: the shuffle is a permutation -/

/-- Pulling the element at index `k` to the front while writing `y` into
its slot permutes `y :: xs`. -/
theorem get_cons_set_perm (xs : List α) (k : Nat) (hk : k < xs.length)
    (y : α) : List.Perm (xs.get ⟨k, hk⟩ :: xs.set k y) (y :: xs) := by
  induction xs generalizing k with
  | nil => simp at hk
  | cons a t ih =>
    cases k with
    | zero => simpa using List.Perm.swap y a t
    | succ k =>
      simp only [List.get_cons_succ, List.set_cons_succ]
      have hk' : k < t.length := by simpa using hk
      have h1 : List.Perm (t.get ⟨k, hk'⟩ :: a :: t.set k y)
          (a :: t.get ⟨k, hk'⟩ :: t.set k y) :=
        List.Perm.swap a (t.get ⟨k, hk'⟩) (t.set k y)
      have h2 : List.Perm (a :: t.get ⟨k, hk'⟩ :: t.set k y)
          (a :: y :: t) := (ih k hk').cons a
      have h3 : List.Perm (a :: y :: t) (y :: a :: t) :=
        List.Perm.swap y a t
      exact (h1.trans h2).trans h3

/-- An in-range double `set` exchanging two entries permutes the list. -/
theorem set_set_perm (l : List α) (i j : Nat) (hi : i < l.length)
    (hj : j < l.length) :
    List.Perm ((l.set i (l.get ⟨j, hj⟩)).set j (l.get ⟨i, hi⟩)) l := by
  induction l generalizing i j with
  | nil => simp at hi
  | cons a t ih =>
    cases i with
    | zero =>
      cases j with
      | zero => simp
      | succ k =>
        simp only [List.get_cons_zero, List.get_cons_succ,
          List.set_cons_zero, List.set_cons_succ]
        exact get_cons_set_perm t k (by simpa using hj) a
    | succ m =>
      cases j with
      | zero =>
        simp only [List.get_cons_zero, List.get_cons_succ,
          List.set_cons_zero, List.set_cons_succ]
        exact get_cons_set_perm t m (by simpa using hi) a
      | succ k =>
        simp only [List.get_cons_succ, List.set_cons_succ]
        exact (ih m k (by simpa using hi) (by simpa using hj)).cons a

/-- `swapElems` permutes its input for any indices. -/
theorem swapElems_perm (l : List α) (i j : Nat) :
    List.Perm (swapElems l i j) l := by
  unfold swapElems
  cases hgi : l.get? i with
  | none => cases l.get? j <;> exact List.Perm.refl l
  | some a =>
    cases hgj : l.get? j with
    | none => exact List.Perm.refl l
    | some b =>
      obtain ⟨hi, ha⟩ := List.get?_eq_some.mp hgi
      obtain ⟨hj, hb⟩ := List.get?_eq_some.mp hgj
      subst ha hb
      exact set_set_perm l i j hi hj

/-- The shuffle loop permutes its input. -/
theorem shuffleGo_perm (i : Nat) (js : List Nat) (a : List α) :
    List.Perm (shuffleGo a i js) a := by
  induction js generalizing a i with
  | nil => cases i <;> exact List.Perm.refl a
  | cons j rest ih =>
    cases i with
    | zero => exact List.Perm.refl a
    | succ i' =>
      exact (ih _ _).trans (swapElems_perm a (i' + 1) j)

/-- The shuffle returns a permutation of the pool, whatever the random
index stream. -/
theorem shuffle_perm (arr : List α) (js : List Nat) :
    List.Perm (shuffle arr js) arr :=
  shuffleGo_perm (arr.length - 1) js arr

/-! ## Helper lemmas: `withRetry` attempt accounting -/

/-- An attempt counts as failed when the operation threw, or returned a
result rejected by the validator. -/
def attemptFails (validate : T → Bool) (a : AttemptResult T) : Bool :=
  match a with
  | .returned t => !(validate t)
  | .threw _ => true

/-- The `lastErr` message recorded for a failed attempt. -/
def lastAttemptMsg (describe : T → String) (retries : Nat)
    (a : AttemptResult T) (attempt : Nat) : String :=
  match a with
  | .returned t => validationMsg attempt retries (describe t)
  | .threw msg => msg

/-- Index-shift identity for the backoff delay lists. -/
theorem delays_cons_shift (attempt m : Nat) :
    1000 * attempt :: (List.range m).map (fun j => 1000 * (attempt + 1 + j)) =
    (List.range (m + 1)).map (fun j => 1000 * (attempt + j)) := by
  rw [List.range_succ_eq_map, List.map_cons, List.map_map]
  refine congrArg₂ _ (by omega) ?_
  apply List.map_congr_left
  intro a _
  simp only [Function.comp_apply, Nat.succ_eq_add_one]
  omega

/-- Generalized success lemma for the retry loop: `m` leading failures,
then a validated result on attempt `attempt + m`. -/
theorem withRetryGo_succeeds (fn : Nat → AttemptResult T)
    (validate : T → Bool) (describe : T → String) (retries : Nat) :
    ∀ (m remaining attempt : Nat) (lastErr : String) (t : T),
      m < remaining → attempt + remaining = retries + 1 →
      (∀ j, j < m → attemptFails validate (fn (attempt + j)) = true) →
      fn (attempt + m) = .returned t → validate t = true →
      withRetryGo fn validate describe retries remaining attempt lastErr =
        ⟨.ok t, m + 1, (List.range m).map (fun j => 1000 * (attempt + j))⟩ := by
  intro m
  induction m with
  | zero =>
    intro remaining attempt lastErr t hm _ _ hfn hval
    obtain ⟨rem, rfl⟩ : ∃ rem, remaining = rem + 1 :=
      ⟨remaining - 1, by omega⟩
    rw [Nat.add_zero] at hfn
    simp [withRetryGo, hfn, hval]
  | succ m ih =>
    intro remaining attempt lastErr t hm hinv hfail hfn hval
    obtain ⟨rem, rfl⟩ : ∃ rem, remaining = rem + 1 :=
      ⟨remaining - 1, by omega⟩
    have hlt : attempt < retries := by omega
    have hfail' : ∀ j, j < m →
        attemptFails validate (fn (attempt + 1 + j)) = true := by
      intro j hj
      have := hfail (j + 1) (by omega)
      rwa [show attempt + (j + 1) = attempt + 1 + j by omega] at this
    have hfn' : fn (attempt + 1 + m) = .returned t := by
      rwa [show attempt + 1 + m = attempt + (m + 1) by omega]
    have h0 := hfail 0 (Nat.succ_pos m)
    rw [Nat.add_zero] at h0
    cases hat : fn attempt with
    | returned t' =>
      rw [hat] at h0
      have hv' : validate t' = false := by
        simpa [attemptFails] using h0
      have hrest := ih rem (attempt + 1)
        (validationMsg attempt retries (describe t')) t
        (by omega) (by omega) hfail' hfn' hval
      simp only [withRetryGo, hat, hv', Bool.false_eq_true, if_false,
        if_pos hlt]
      rw [hrest]
      simp only [List.singleton_append]
      rw [delays_cons_shift]
    | threw msg =>
      have hrest := ih rem (attempt + 1) msg t
        (by omega) (by omega) hfail' hfn' hval
      simp only [withRetryGo, hat, if_pos hlt]
      rw [hrest]
      simp only [List.singleton_append]
      rw [delays_cons_shift]

/-- Generalized exhaustion lemma for the retry loop: every remaining
attempt fails, so the loop rethrows the last attempt's error after
performing all remaining attempts. -/
theorem withRetryGo_exhausts (fn : Nat → AttemptResult T)
    (validate : T → Bool) (describe : T → String) (retries : Nat) :
    ∀ (remaining attempt : Nat) (lastErr : String),
      1 ≤ remaining → attempt + remaining = retries + 1 →
      (∀ j, j < remaining → attemptFails validate (fn (attempt + j)) = true) →
      withRetryGo fn validate describe retries remaining attempt lastErr =
        ⟨.error (lastAttemptMsg describe retries (fn retries) retries),
         remaining,
         (List.range (remaining - 1)).map (fun j => 1000 * (attempt + j))⟩ := by
  intro remaining
  induction remaining with
  | zero => intro attempt lastErr h1 _ _; omega
  | succ rem ih =>
    intro attempt lastErr _ hinv hfail
    have h0 := hfail 0 (Nat.succ_pos rem)
    rw [Nat.add_zero] at h0
    by_cases hrem0 : rem = 0
    · subst hrem0
      have hatt : attempt = retries := by omega
      have hnlt : ¬ attempt < retries := by omega
      have hatr : fn retries = fn attempt := by rw [hatt]
      cases hat : fn attempt with
      | returned t' =>
        rw [hat] at h0
        have hv' : validate t' = false := by
          simpa [attemptFails] using h0
        rw [hat] at hatr
        simp [withRetryGo, hat, hv', hatr, lastAttemptMsg, hnlt, hatt]
      | threw msg =>
        rw [hat] at hatr
        simp [withRetryGo, hat, hatr, lastAttemptMsg, hnlt]
    · have hlt : attempt < retries := by omega
      have hfail' : ∀ j, j < rem →
          attemptFails validate (fn (attempt + 1 + j)) = true := by
        intro j hj
        have := hfail (j + 1) (by omega)
        rwa [show attempt + (j + 1) = attempt + 1 + j by omega] at this
      cases hat : fn attempt with
      | returned t' =>
        rw [hat] at h0
        have hv' : validate t' = false := by
          simpa [attemptFails] using h0
        have hrest := ih (attempt + 1)
          (validationMsg attempt retries (describe t'))
          (by omega) (by omega) hfail'
        simp only [withRetryGo, hat, hv', Bool.false_eq_true, if_false,
          if_pos hlt]
        rw [hrest]
        obtain ⟨rem', rfl⟩ : ∃ rem', rem = rem' + 1 := ⟨rem - 1, by omega⟩
        simp only [Nat.add_sub_cancel, List.singleton_append]
        rw [delays_cons_shift]
      | threw msg =>
        have hrest := ih (attempt + 1) msg (by omega) (by omega) hfail'
        simp only [withRetryGo, hat, if_pos hlt]
        rw [hrest]
        obtain ⟨rem', rfl⟩ : ∃ rem', rem = rem' + 1 := ⟨rem - 1, by omega⟩
        simp only [Nat.add_sub_cancel, List.singleton_append]
        rw [delays_cons_shift]

/-- Every delay the retry loop can emit is at least `1000 * attempt`, and
the delay list is strictly increasing. -/
theorem withRetryGo_delays (fn : Nat → AttemptResult T)
    (validate : T → Bool) (describe : T → String) (retries : Nat) :
    ∀ (remaining attempt : Nat) (lastErr : String),
      List.Pairwise (· < ·)
        (withRetryGo fn validate describe retries remaining attempt
          lastErr).delays ∧
      ∀ d ∈ (withRetryGo fn validate describe retries remaining attempt
          lastErr).delays, 1000 * attempt ≤ d := by
  intro remaining
  induction remaining with
  | zero => intro attempt lastErr; simp [withRetryGo]
  | succ rem ih =>
    intro attempt lastErr
    have step : ∀ (rest : RetryOutcome T),
        rest = withRetryGo fn validate describe retries rem (attempt + 1)
            (lastAttemptMsg describe retries (fn attempt) attempt) →
        List.Pairwise (· < ·)
          ((if attempt < retries then [1000 * attempt] else [])
            ++ rest.delays) ∧
        ∀ d ∈ (if attempt < retries then [1000 * attempt] else [])
            ++ rest.delays, 1000 * attempt ≤ d := by
      intro rest hrest
      obtain ⟨hpw, hbd⟩ := ih (attempt + 1)
        (lastAttemptMsg describe retries (fn attempt) attempt)
      rw [← hrest] at hpw hbd
      by_cases hlt : attempt < retries
      · simp only [if_pos hlt, List.cons_append, List.nil_append]
        refine ⟨List.pairwise_cons.mpr ⟨?_, hpw⟩, ?_⟩
        · intro d hd
          have := hbd d hd
          omega
        · intro d hd
          rcases List.mem_cons.mp hd with h | h
          · omega
          · have := hbd d h; omega
      · simp only [if_neg hlt, List.nil_append]
        refine ⟨hpw, ?_⟩
        intro d hd
        have := hbd d hd
        omega
    cases hat : fn attempt with
    | returned t' =>
      by_cases hv : validate t'
      · simp [withRetryGo, hat, hv]
      · have := step _ rfl
        simp only [withRetryGo, hat, hv, Bool.false_eq_true, if_false]
        simpa [lastAttemptMsg, hat] using this
    | threw msg =>
      have := step _ rfl
      simp only [withRetryGo, hat]
      simpa [lastAttemptMsg, hat] using this

/-- Success form of the retry contract at the top-level entry point. -/
theorem withRetry_succeeds (fn : Nat → AttemptResult T) (validate : T → Bool)
    (describe : T → String) (retries N : Nat) (t : T)
    (h1 : 1 ≤ N) (h2 : N ≤ retries)
    (hfail : ∀ k, 1 ≤ k → k < N → attemptFails validate (fn k) = true)
    (hfn : fn N = .returned t) (hval : validate t = true) :
    withRetry fn validate describe retries =
      ⟨.ok t, N, (List.range (N - 1)).map (fun j => 1000 * (1 + j))⟩ := by
  have h := withRetryGo_succeeds fn validate describe retries (N - 1) retries 1
    "undefined" t (by omega) (by omega)
    (fun j hj => hfail (1 + j) (by omega) (by omega))
    (by rwa [show 1 + (N - 1) = N by omega]) hval
  rw [withRetry, h]
  have : N - 1 + 1 = N := by omega
  rw [this]

/-- Exhaustion form of the retry contract at the top-level entry point. -/
theorem withRetry_exhausts (fn : Nat → AttemptResult T) (validate : T → Bool)
    (describe : T → String) (retries : Nat) (h1 : 1 ≤ retries)
    (hfail : ∀ k, 1 ≤ k → k ≤ retries → attemptFails validate (fn k) = true) :
    withRetry fn validate describe retries =
      ⟨.error (lastAttemptMsg describe retries (fn retries) retries), retries,
       (List.range (retries - 1)).map (fun j => 1000 * (1 + j))⟩ := by
  exact withRetryGo_exhausts fn validate describe retries retries 1 "undefined"
    (by omega) (by omega) (fun j hj => hfail (1 + j) (by omega) (by omega))

/-- C4: for the retry wrapper with positive attempt bound: failing the
first `N-1` attempts and producing a valid result on attempt `N ≤
maxAttempts` returns that result after exactly `N` invocations; failing
every attempt fails after exactly `maxAttempts` invocations carrying the
last underlying error or validation message; the sleeps between
consecutive attempts are `1000 * attempt` ms — one per non-final attempt,
none after the last — hence strictly increasing. -/
theorem c4_retry_executor_contract (fn : Nat → AttemptResult T)
    (validate : T → Bool) (describe : T → String) (retries N : Nat) (t : T) :
    (1 ≤ N → N ≤ retries →
      (∀ k, 1 ≤ k → k < N → attemptFails validate (fn k) = true) →
      fn N = .returned t → validate t = true →
      withRetry fn validate describe retries =
        ⟨.ok t, N, (List.range (N - 1)).map (fun j => 1000 * (1 + j))⟩) ∧
    (1 ≤ retries →
      (∀ k, 1 ≤ k → k ≤ retries → attemptFails validate (fn k) = true) →
      withRetry fn validate describe retries =
        ⟨.error (lastAttemptMsg describe retries (fn retries) retries),
         retries,
         (List.range (retries - 1)).map (fun j => 1000 * (1 + j))⟩) ∧
    List.Pairwise (· < ·) (withRetry fn validate describe retries).delays :=
  ⟨fun h1 h2 h3 h4 h5 => withRetry_succeeds fn validate describe retries N t
      h1 h2 h3 h4 h5,
   fun h1 h2 => withRetry_exhausts fn validate describe retries h1 h2,
   (withRetryGo_delays fn validate describe retries retries 1 "undefined").1⟩

/-- Operation used by the retry witness: throws once, then returns a valid
value. -/
def retryWitnessFn1 : Nat → AttemptResult String :=
  fun k => if k = 1 then .threw "boom" else .returned "okvalue"

/-- Operation used by the retry witness: always throws. -/
def retryWitnessFn2 : Nat → AttemptResult String :=
  fun _ => .threw "boom"

/-- Witness for C4 at concrete operations with `maxAttempts = 3`. -/
theorem c4_retry_executor_contract_witness :
    withRetry retryWitnessFn1 (fun s => isRealString s 3) jsonSlice100 3 =
      ⟨.ok "okvalue", 2, [1000]⟩ ∧
    withRetry retryWitnessFn2 (fun s => isRealString s 3) jsonSlice100 3 =
      ⟨.error "boom", 3, [1000, 2000]⟩ ∧
    List.Pairwise (· < ·)
      (withRetry retryWitnessFn1 (fun s => isRealString s 3)
        jsonSlice100 3).delays := by
  refine ⟨?_, ?_, ?_⟩
  · have h := (c4_retry_executor_contract retryWitnessFn1
      (fun s => isRealString s 3) jsonSlice100 3 2 "okvalue").1
      (by omega) (by omega)
      (by
        intro k hk1 hk2
        have : k = 1 := by omega
        subst this
        rfl)
      rfl rfl
    exact h.trans rfl
  · have h := (c4_retry_executor_contract retryWitnessFn2
      (fun s => isRealString s 3) jsonSlice100 3 1 "unused").2.1
      (by omega) (fun k _ _ => rfl)
    exact h.trans rfl
  · exact (c4_retry_executor_contract retryWitnessFn1
      (fun s => isRealString s 3) jsonSlice100 3 1 "unused").2.2

/-- C2 (counterexample): at a concrete pool — the program's own `MODELS`,
which has at least 3 members with pairwise-distinct identities — and a
concrete (valid) shuffle randomness, the prompter is also one of the
voters, so the prompter, the contestants and the voters are not pairwise
disjoint. -/
theorem c2_roles_counterexample :
    3 ≤ MODELS.length ∧ MODELS.Nodup ∧
    (assignRoles MODELS [0, 0, 0, 0, 0, 0]).prompter ∈
      (assignRoles MODELS [0, 0, 0, 0, 0, 0]).voters := by
  refine ⟨by decide, by decide, by decide⟩

/-- C2 (amended): for every pool of at least 3 pairwise-distinct
participants, one invocation of role assignment yields pairwise-distinct
prompter and contestants, and neither contestant appears among the voters;
the single exception to role disjointness is the prompter, who is by
construction also the first voter (the voters are the prompter followed by
the pool members beyond the first three of the shuffle). -/
theorem c2_roles_amended (pool : List Model) (js : List Nat)
    (hnd : pool.Nodup) (hlen : 3 ≤ pool.length) :
    (assignRoles pool js).prompter ≠ (assignRoles pool js).contA ∧
    (assignRoles pool js).prompter ≠ (assignRoles pool js).contB ∧
    (assignRoles pool js).contA ≠ (assignRoles pool js).contB ∧
    (assignRoles pool js).contA ∉ (assignRoles pool js).voters ∧
    (assignRoles pool js).contB ∉ (assignRoles pool js).voters ∧
    (assignRoles pool js).prompter ∈ (assignRoles pool js).voters ∧
    (assignRoles pool js).voters =
      (assignRoles pool js).prompter :: (shuffle pool js).drop 3 := by
  have hperm := shuffle_perm pool js
  have hnodup : (shuffle pool js).Nodup := hperm.symm.nodup hnd
  have hlen' : 3 ≤ (shuffle pool js).length := by
    rw [hperm.length_eq]; exact hlen
  obtain ⟨a, b, c, rest, hs⟩ :
      ∃ a b c rest, shuffle pool js = a :: b :: c :: rest := by
    rcases h : shuffle pool js with _ | ⟨a, _ | ⟨b, _ | ⟨c, rest⟩⟩⟩ <;>
      rw [h] at hlen'
    · simp at hlen'
    · simp at hlen'
    · simp at hlen'
    · exact ⟨a, b, c, rest, rfl⟩
  rw [hs] at hnodup
  simp only [List.nodup_cons, List.mem_cons, not_or] at hnodup
  obtain ⟨⟨hab, hac, haR⟩, ⟨hbc, hbR⟩, hcR, _⟩ := hnodup
  unfold assignRoles
  rw [hs]
  simp only [List.getD_cons_zero, List.getD_cons_succ, List.drop_succ_cons,
    List.drop_zero, List.mem_cons, not_or]
  refine ⟨hab, hac, hbc, ⟨fun h => hab h.symm, hbR⟩,
    ⟨fun h => hac h.symm, hcR⟩, Or.inl trivial, trivial⟩

/-- Witness for C2 (amended) at the program's own pool. -/
theorem c2_roles_amended_witness :
    (assignRoles MODELS [3, 1, 4, 1, 2, 0]).prompter ≠
      (assignRoles MODELS [3, 1, 4, 1, 2, 0]).contA ∧
    (assignRoles MODELS [3, 1, 4, 1, 2, 0]).contA ∉
      (assignRoles MODELS [3, 1, 4, 1, 2, 0]).voters := by
  have h := c2_roles_amended MODELS [3, 1, 4, 1, 2, 0]
    (by decide) (by decide)
  exact ⟨h.1, h.2.2.2.1⟩

/-- C8: every round record is created with phase `prompting`, and along any
execution of the round body the phase trace starts at `prompting` and is
strictly increasing in the phase order (so it never regresses, and the only
transitions are prompting→answering→voting→done with the prompting→done
shortcut on prompt exhaustion). -/
theorem c8_phase_monotone (st : GameState) (r : Nat) (env : RoundEnv)
    (roles : Roles) (now : Nat) :
    (initRound r roles now).phase = Phase.prompting ∧
    (runRoundBody st r env).phases.head? = some Phase.prompting ∧
    List.Chain' (fun p q => phaseIdx p < phaseIdx q)
      (runRoundBody st r env).phases := by
  refine ⟨rfl, ?_⟩
  simp only [runRoundBody]
  split
  · exact ⟨rfl, by simp [List.chain'_cons, phaseIdx]⟩
  · exact ⟨rfl, by simp [List.chain'_cons, phaseIdx]⟩
  · split
    · exact ⟨rfl, by simp [List.chain'_cons, phaseIdx]⟩
    · split
      · exact ⟨rfl, by simp [List.chain'_cons, phaseIdx]⟩
      · split
        · exact ⟨rfl, by simp [List.chain'_cons, phaseIdx]⟩
        · exact ⟨rfl, by simp [List.chain'_cons, phaseIdx]⟩

/-- C9: the game loop's first round number is the last in-memory completed
round's number plus 1 (and 1 when the list is empty); composed with the
server boot seeding, it is the last archived round's number plus 1, or 1
when nothing is archived. -/
theorem c9_resume_round_number (completed allRounds : List RoundState) :
    (startRoundOf [] = 1) ∧
    (∀ r', completed.getLast? = some r' →
      startRoundOf completed = r'.num + 1) ∧
    (startRoundOf (initialCompleted allRounds) =
      match allRounds.getLast? with
      | some r' => r'.num + 1
      | none => 1) := by
  refine ⟨rfl, ?_, ?_⟩
  · intro r' h
    unfold startRoundOf
    rw [h]
  · cases h : allRounds.getLast? with
    | none => simp [initialCompleted, startRoundOf, h]
    | some r' => simp [initialCompleted, startRoundOf, h]

/-- A concrete completed round used by witnesses. -/
def sampleRound : RoundState := initRound 41 (assignRoles MODELS []) 0

/-- Witness for C9 at a concrete archive. -/
theorem c9_resume_round_number_witness :
    startRoundOf [sampleRound] = 42 ∧
    startRoundOf (initialCompleted [sampleRound]) = 42 ∧
    startRoundOf (initialCompleted []) = 1 := by
  refine ⟨?_, ?_, ?_⟩
  · exact (c9_resume_round_number [sampleRound] []).2.1 sampleRound rfl
  · exact (c9_resume_round_number [] [sampleRound]).2.2
  · exact (c9_resume_round_number [] []).2.2

/-- C5: at the tally, with `votesA`/`votesB` the counts of resolved votes
for the two contestants (abstentions counting toward neither), a strict
majority for a side increments exactly that side's standings entry by one
and makes that side's round score strictly larger; a tie (including 0–0)
changes no standings entry. -/
theorem c5_tally_standings (scores : String → Nat) (round : RoundState) :
    (((tallyVotes round.votes round.contestants.1 round.contestants.2).1 >
        (tallyVotes round.votes round.contestants.1 round.contestants.2).2) →
      (scoreStep scores round).1 round.contestants.1.name =
          scores round.contestants.1.name + 1 ∧
      (∀ n, n ≠ round.contestants.1.name →
        (scoreStep scores round).1 n = scores n) ∧
      ∃ a b, (scoreStep scores round).2.scoreA = some a ∧
        (scoreStep scores round).2.scoreB = some b ∧ b < a) ∧
    (((tallyVotes round.votes round.contestants.1 round.contestants.2).2 >
        (tallyVotes round.votes round.contestants.1 round.contestants.2).1) →
      (scoreStep scores round).1 round.contestants.2.name =
          scores round.contestants.2.name + 1 ∧
      (∀ n, n ≠ round.contestants.2.name →
        (scoreStep scores round).1 n = scores n) ∧
      ∃ a b, (scoreStep scores round).2.scoreA = some a ∧
        (scoreStep scores round).2.scoreB = some b ∧ a < b) ∧
    (((tallyVotes round.votes round.contestants.1 round.contestants.2).1 =
        (tallyVotes round.votes round.contestants.1 round.contestants.2).2) →
      ∀ n, (scoreStep scores round).1 n = scores n) := by
  refine ⟨?_, ?_, ?_⟩
  · intro h
    simp only [scoreStep, if_pos h]
    refine ⟨by simp [bumpScore], fun n hn => by simp [bumpScore, hn], ?_⟩
    exact ⟨_, _, rfl, rfl, by omega⟩
  · intro h
    have hno : ¬ ((tallyVotes round.votes round.contestants.1
        round.contestants.2).1 >
        (tallyVotes round.votes round.contestants.1
          round.contestants.2).2) := by omega
    simp only [scoreStep, if_neg hno, if_pos h]
    refine ⟨by simp [bumpScore], fun n hn => by simp [bumpScore, hn], ?_⟩
    exact ⟨_, _, rfl, rfl, by omega⟩
  · intro h
    have hno1 : ¬ ((tallyVotes round.votes round.contestants.1
        round.contestants.2).1 >
        (tallyVotes round.votes round.contestants.1
          round.contestants.2).2) := by omega
    have hno2 : ¬ ((tallyVotes round.votes round.contestants.1
        round.contestants.2).2 >
        (tallyVotes round.votes round.contestants.1
          round.contestants.2).1) := by omega
    intro n
    simp only [scoreStep, if_neg hno1, if_neg hno2]

/-- A concrete round with a 3–2 vote split used by the C5 witness: the
contestants are the second and third models of the shuffled pool. -/
def c5Round : RoundState :=
  { initRound 7 (assignRoles MODELS [0, 0, 0, 0, 0, 0]) 0 with
    votes :=
      [ { voter := dummyModel, startedAt := 0, finishedAt := some 1,
          votedFor := some (assignRoles MODELS [0, 0, 0, 0, 0, 0]).contA,
          error := none },
        { voter := dummyModel, startedAt := 0, finishedAt := some 1,
          votedFor := some (assignRoles MODELS [0, 0, 0, 0, 0, 0]).contA,
          error := none },
        { voter := dummyModel, startedAt := 0, finishedAt := some 1,
          votedFor := some (assignRoles MODELS [0, 0, 0, 0, 0, 0]).contA,
          error := none },
        { voter := dummyModel, startedAt := 0, finishedAt := some 1,
          votedFor := some (assignRoles MODELS [0, 0, 0, 0, 0, 0]).contB,
          error := none },
        { voter := dummyModel, startedAt := 0, finishedAt := some 1,
          votedFor := some (assignRoles MODELS [0, 0, 0, 0, 0, 0]).contB,
          error := none } ] }

/-- A concrete round with no votes (all abstain, 0–0) used by the C5
witness. -/
def c5TieRound : RoundState :=
  { initRound 8 (assignRoles MODELS [0, 0, 0, 0, 0, 0]) 0 with
    votes :=
      [ { voter := dummyModel, startedAt := 0, finishedAt := some 1,
          votedFor := none, error := some true } ] }

/-- Witness for C5 at a 3–2 round and an all-abstained round. -/
theorem c5_tally_standings_witness :
    ((scoreStep (fun _ => 5) c5Round).1 c5Round.contestants.1.name = 6 ∧
      (scoreStep (fun _ => 5) c5Round).1 c5Round.contestants.2.name = 5) ∧
    (∀ n, (scoreStep (fun _ => 5) c5TieRound).1 n = 5) := by
  constructor
  · have h := (c5_tally_standings (fun _ => 5) c5Round).1 (by decide)
    refine ⟨h.1, ?_⟩
    exact h.2.1 c5Round.contestants.2.name (by decide)
  · intro n
    exact (c5_tally_standings (fun _ => 5) c5TieRound).2.2 (by decide) n

/-- C6: for both values of the per-task coin flip and both backend replies
(`A` = first presented, `B` = second presented), the answer the voter chose
is exactly the answer belonging to the contestant recorded by
`resolveVote`; moreover the vote-task settlement records that contestant in
`votedFor` when the generation still matches. -/
theorem c6_vote_mapping (showAFirst : Bool) (result : Choice)
    (contA contB : Model) (answerA answerB : String)
    (hne : contA ≠ contB) :
    ((if result = Choice.A
        then (presentedPair showAFirst answerA answerB).1
        else (presentedPair showAFirst answerA answerB).2) =
      (if resolveVote showAFirst result contA contB = contA
        then answerA else answerB)) ∧
    (∀ (gSnap : Nat) (ve : VoteEnv) (vote : VoteInfo) (c : Choice),
      (withRetry ve.attempts (fun v => v == Choice.A || v == Choice.B)
          choiceJson 3).result = .ok c →
      ve.gSettle = gSnap →
      (voteTaskRun gSnap gSnap contA contB answerA answerB ve
          vote).1.votedFor =
        some (resolveVote ve.showAFirst c contA contB)) := by
  constructor
  · have hne' : contB ≠ contA := fun h => hne h.symm
    cases showAFirst <;> cases result <;>
      simp [presentedPair, resolveVote, hne, hne']
  · intro gSnap ve vote c hok hg
    simp only [voteTaskRun]
    rw [hok]
    simp [hg]

/-- Witness for C6 at concrete contestants, both flips and both replies. -/
theorem c6_vote_mapping_witness :
    ((if Choice.B = Choice.A
        then (presentedPair false "alpha" "beta").1
        else (presentedPair false "alpha" "beta").2) =
      (if resolveVote false Choice.B
          { id := "a", name := "A" } { id := "b", name := "B" } =
          { id := "a", name := "A" }
        then "alpha" else "beta")) ∧
    (voteTaskRun 0 0 { id := "a", name := "A" } { id := "b", name := "B" }
        "alpha" "beta"
        ⟨true, fun _ => .returned Choice.A, 0, 9⟩
        { voter := dummyModel, startedAt := 0, finishedAt := none,
          votedFor := none, error := none }).1.votedFor =
      some { id := "a", name := "A" } := by
  constructor
  · exact (c6_vote_mapping false Choice.B { id := "a", name := "A" }
      { id := "b", name := "B" } "alpha" "beta" (by decide)).1
  · exact (c6_vote_mapping true Choice.A { id := "a", name := "A" }
      { id := "b", name := "B" } "alpha" "beta" (by decide)).2
      0 ⟨true, fun _ => .returned Choice.A, 0, 9⟩
      { voter := dummyModel, startedAt := 0, finishedAt := none,
        votedFor := none, error := none }
      Choice.A rfl rfl

/-- A quiet initial game state used by concrete executions. -/
def baseState : GameState :=
  { completed := [], active := none, scores := fun _ => 0, done := false,
    isPaused := false, generation := 0 }

/-- A round environment in which every backend call succeeds and the
generation never changes. -/
def envAllOk : RoundEnv :=
  { js := [0, 0, 0, 0, 0, 0]
    startTime := 10
    promptAttempts := fun _ => .returned "a sufficiently long prompt"
    gAfterPrompt := 0
    promptFinishTime := 11
    answerStart := 12
    answerAttempts := fun _ _ => .returned "funny answer"
    gAnswerSettle := fun _ => 0
    answerFinishTime := fun _ => 13
    gAfterAnswers := 0
    voteStart := 14
    voteEnvs := fun _ => ⟨true, fun _ => .returned Choice.A, 0, 15⟩
    gAfterVotes := 0
    gAfterDelay := 0 }

/-- An environment whose prompt backend always returns the empty string
(which fails the ≥10-character validation on all 3 attempts). -/
def envPromptInvalid : RoundEnv :=
  { envAllOk with promptAttempts := fun _ => .returned "" }

/-- C3 (counterexample): with a backend that always returns an invalid
(empty) prompt and an unchanged generation, the round does end as a
terminal `done` round with the error marker — but the archive
(`saveRound`) is never called for it: the prompt-exhaustion branch appends
the round to the in-memory history without archiving, so "archive still
called once" is false. -/
theorem c3_prompt_exhaustion_counterexample :
    (runRoundBody baseState 1 envPromptInvalid).state.completed.map
        RoundState.phase = [Phase.done] ∧
    (runRoundBody baseState 1 envPromptInvalid).state.completed.map
        (fun r => r.promptTask.error) = [some "Failed after 3 attempts"] ∧
    saveEvents (runRoundBody baseState 1 envPromptInvalid).events = [] ∧
    (saveEvents (runRoundBody baseState 1 envPromptInvalid).events).length
      ≠ 1 := by
  refine ⟨rfl, rfl, rfl, ?_⟩
  have h0 : saveEvents (runRoundBody baseState 1 envPromptInvalid).events
      = [] := rfl
  rw [h0]
  decide

/-- C3 (amended): if the prompt phase exhausts all retry attempts and the
generation still matches, the round ends with phase `done`, its prompt
task carries the error marker, the answering and voting phases do not run
(no answer-task writes, no votes, no vote-phase reads), the standings are
unchanged, the round is appended to the in-memory completed history, and
the archive is NOT called for that round (no score fields are set). -/
theorem c3_prompt_exhaustion_amended (st : GameState) (r : Nat)
    (env : RoundEnv) (e : String)
    (herr : (withRetry env.promptAttempts (fun s => isRealString s 10)
        jsonSlice100 3).result = .error e)
    (hg : env.gAfterPrompt = st.generation) :
    ∃ round1,
      (runRoundBody st r env).state.completed = st.completed ++ [round1] ∧
      round1.phase = Phase.done ∧
      round1.promptTask.error = some "Failed after 3 attempts" ∧
      round1.promptTask.finishedAt = some env.promptFinishTime ∧
      round1.scoreA = none ∧ round1.scoreB = none ∧
      round1.votes = [] ∧
      round1.answerTasks.1.result = none ∧
      round1.answerTasks.2.result = none ∧
      (runRoundBody st r env).phases = [Phase.prompting, Phase.done] ∧
      (∀ n, (runRoundBody st r env).state.scores n = st.scores n) ∧
      saveEvents (runRoundBody st r env).events = [] ∧
      (runRoundBody st r env).state.active = none ∧
      (runRoundBody st r env).voteInputs = none := by
  simp only [runRoundBody]
  rw [herr]
  simp only [promptSettle, hg, ne_eq, not_true_eq_false, if_false]
  refine ⟨_, rfl, ?_⟩
  simp [initRound, saveEvents]

set_option maxRecDepth 4000 in
/-- Witness for C3 (amended) at a concrete always-invalid prompt backend. -/
theorem c3_prompt_exhaustion_amended_witness :
    (runRoundBody baseState 1 envPromptInvalid).phases =
      [Phase.prompting, Phase.done] ∧
    (runRoundBody baseState 1 envPromptInvalid).voteInputs = none ∧
    (∀ n, (runRoundBody baseState 1 envPromptInvalid).state.scores n =
      baseState.scores n) := by
  have h := c3_prompt_exhaustion_amended baseState 1 envPromptInvalid
    "Validation failed (attempt 3/3): \"\"" rfl rfl
  obtain ⟨round1, _, _, _, _, _, _, _, _, _, hphases, hscores, _, _,
    hvi⟩ := h
  exact ⟨hphases, hvi, hscores⟩

/-- Selector for one of the two answer-task records (`false` = contestant
A's task, `true` = contestant B's, matching the `answerAttempts` index). -/
def answerTaskOf (round : RoundState) (b : Bool) : TaskInfo :=
  if b then round.answerTasks.2 else round.answerTasks.1

/-- When the generation matches at both checkpoints, an answer-task
settlement always writes a result: the generated answer on success, the
placeholder on exhaustion — and reports completion. -/
theorem answerTaskRun_matched (gSnap : Nat)
    (attempts : Nat → AttemptResult String) (finishTime : Nat)
    (task : TaskInfo) :
    (∃ s, (withRetry attempts (fun s => isRealString s 3)
        jsonSlice100 3).result = .ok s ∧
      answerTaskRun gSnap gSnap attempts gSnap finishTime task =
        ({ task with result := some s, finishedAt := some finishTime },
         true)) ∨
    (∃ e, (withRetry attempts (fun s => isRealString s 3)
        jsonSlice100 3).result = .error e ∧
      answerTaskRun gSnap gSnap attempts gSnap finishTime task =
        ({ task with
           error := some "Failed to answer"
           result := some "[no answer]"
           finishedAt := some finishTime }, true)) := by
  cases hres : (withRetry attempts (fun s => isRealString s 3)
      jsonSlice100 3).result with
  | ok s =>
    left
    refine ⟨s, rfl, ?_⟩
    simp only [answerTaskRun]
    rw [hres]
    simp
  | error e =>
    right
    refine ⟨e, rfl, ?_⟩
    simp only [answerTaskRun]
    rw [hres]
    simp

/-- C10: if the generation observations are monotone across the answer
phase and the snapshot still matches when the phase completes, then both
answer-task records carry a defined result string — the generated answer
or the placeholder — so the voting phase's non-null reads never observe an
absent value. -/
theorem c10_answer_results_defined (gSnap : Nat) (env : RoundEnv)
    (round : RoundState)
    (hp : env.gAfterPrompt = gSnap)
    (hmono1 : ∀ b, gSnap ≤ env.gAnswerSettle b)
    (hmono2 : ∀ b, env.gAnswerSettle b ≤ env.gAfterAnswers)
    (hdone : env.gAfterAnswers = gSnap) :
    (answerPhaseRun gSnap env round).1.answerTasks.1.result.isSome = true ∧
    (answerPhaseRun gSnap env round).1.answerTasks.2.result.isSome = true ∧
    (∀ b : Bool,
      (∃ s, (withRetry (env.answerAttempts b) (fun s => isRealString s 3)
          jsonSlice100 3).result = .ok s ∧
        (answerTaskOf (answerPhaseRun gSnap env round).1 b).result =
          some s) ∨
      (answerTaskOf (answerPhaseRun gSnap env round).1 b).result =
        some "[no answer]") := by
  have hgb : ∀ b, env.gAnswerSettle b = gSnap := by
    intro b
    have h1 := hmono1 b
    have h2 := hmono2 b
    omega
  simp only [answerPhaseRun, hp, hgb]
  rcases answerTaskRun_matched gSnap (env.answerAttempts false)
      (env.answerFinishTime false)
      { round.answerTasks.1 with startedAt := env.answerStart } with
    ⟨s0, hres0, heq0⟩ | ⟨e0, hres0, heq0⟩ <;>
  rcases answerTaskRun_matched gSnap (env.answerAttempts true)
      (env.answerFinishTime true)
      { round.answerTasks.2 with startedAt := env.answerStart } with
    ⟨s1, hres1, heq1⟩ | ⟨e1, hres1, heq1⟩ <;>
  rw [heq0, heq1] <;>
  refine ⟨rfl, rfl, ?_⟩ <;>
  intro b <;>
  cases b <;>
  simp [answerTaskOf, hres0, hres1]

/-- Environment for the C10 witness: the first answer task exhausts, the
second succeeds. -/
def c10Env : RoundEnv :=
  { envAllOk with
    answerAttempts := fun b _ =>
      if b then .returned "funny answer" else .threw "api down" }

/-- Round record for the C10 witness. -/
def c10Round : RoundState :=
  initRound 1 (assignRoles MODELS [0, 0, 0, 0, 0, 0]) 10

/-- Witness for C10 at a concrete environment whose first answer task
exhausts and whose second succeeds. -/
theorem c10_answer_results_defined_witness :
    (answerPhaseRun 0 c10Env c10Round).1.answerTasks.1.result.isSome =
      true ∧
    (answerPhaseRun 0 c10Env c10Round).1.answerTasks.2.result.isSome =
      true := by
  have h := c10_answer_results_defined 0 c10Env c10Round rfl
    (fun b => by cases b <;> decide) (fun b => by cases b <;> decide) rfl
  exact ⟨h.1, h.2.1⟩

/-- Rewrite form of an exhausted answer-task settlement under matching
generations. -/
theorem answerTaskRun_exhausted (gSnap finishTime : Nat)
    (attempts : Nat → AttemptResult String) (e : String)
    (herr : (withRetry attempts (fun s => isRealString s 3)
        jsonSlice100 3).result = .error e)
    (task : TaskInfo) :
    answerTaskRun gSnap gSnap attempts gSnap finishTime task =
      ({ task with
         error := some "Failed to answer"
         result := some "[no answer]"
         finishedAt := some finishTime }, true) := by
  simp only [answerTaskRun]
  rw [herr]
  simp

/-- C7: when one contestant's answer task exhausts its retries (and the
generation never changes), the round is not aborted: the failed task is
recorded with the error marker and the placeholder result, the round still
runs the voting phase and completes, the voting phase reads the
placeholder as that contestant's answer — and each task's settled record
is a function of its own attempts alone, so the sibling task is
unaffected. -/
theorem c7_answer_exhaustion_not_fatal (st : GameState) (r : Nat)
    (env : RoundEnv) (i : Bool) (e p : String)
    (hok : (withRetry env.promptAttempts (fun s => isRealString s 10)
        jsonSlice100 3).result = .ok p)
    (herr : (withRetry (env.answerAttempts i) (fun s => isRealString s 3)
        jsonSlice100 3).result = .error e)
    (hg1 : env.gAfterPrompt = st.generation)
    (hg2 : ∀ b, env.gAnswerSettle b = st.generation)
    (hg3 : env.gAfterAnswers = st.generation)
    (hg4 : env.gAfterVotes = st.generation)
    (hg5 : env.gAfterDelay = st.generation) :
    (∃ roundFinal,
      (runRoundBody st r env).state.completed =
        st.completed ++ [roundFinal] ∧
      roundFinal.phase = Phase.done ∧
      (answerTaskOf roundFinal i).error = some "Failed to answer" ∧
      (answerTaskOf roundFinal i).result = some "[no answer]" ∧
      (answerTaskOf roundFinal i).finishedAt =
        some (env.answerFinishTime i) ∧
      (runRoundBody st r env).phases =
        [Phase.prompting, Phase.answering, Phase.voting, Phase.done] ∧
      (i = false → Option.map Prod.fst (runRoundBody st r env).voteInputs =
        some "[no answer]") ∧
      (i = true → Option.map Prod.snd (runRoundBody st r env).voteInputs =
        some "[no answer]")) ∧
    (∀ (g : Nat) (env' : RoundEnv) (rd : RoundState),
      (answerPhaseRun g env' rd).1.answerTasks.1 =
        (answerTaskRun g env'.gAfterPrompt (env'.answerAttempts false)
          (env'.gAnswerSettle false) (env'.answerFinishTime false)
          { rd.answerTasks.1 with startedAt := env'.answerStart }).1 ∧
      (answerPhaseRun g env' rd).1.answerTasks.2 =
        (answerTaskRun g env'.gAfterPrompt (env'.answerAttempts true)
          (env'.gAnswerSettle true) (env'.answerFinishTime true)
          { rd.answerTasks.2 with startedAt := env'.answerStart }).1) := by
  refine ⟨?_, fun g env' rd => ⟨rfl, rfl⟩⟩
  simp only [runRoundBody]
  rw [hok]
  simp only [promptSettle, hg1, ne_eq, not_true_eq_false, if_false]
  simp only [answerPhaseRun, hg1, hg2]
  cases i with
  | false =>
    rw [answerTaskRun_exhausted st.generation (env.answerFinishTime false)
      (env.answerAttempts false) e herr]
    simp only [hg3, hg4, hg5, ne_eq, not_true_eq_false, if_false]
    refine ⟨_, rfl, ?_⟩
    simp [scoreStep, votePhaseRun, answerTaskOf]
  | true =>
    rw [answerTaskRun_exhausted st.generation (env.answerFinishTime true)
      (env.answerAttempts true) e herr]
    simp only [hg3, hg4, hg5, ne_eq, not_true_eq_false, if_false]
    refine ⟨_, rfl, ?_⟩
    simp [scoreStep, votePhaseRun, answerTaskOf]

set_option maxRecDepth 8000 in
/-- Witness for C7: contestant A's answer task always throws, contestant
B's succeeds; the round still completes through voting with the
placeholder. -/
theorem c7_answer_exhaustion_not_fatal_witness :
    (runRoundBody baseState 1 c10Env).phases =
      [Phase.prompting, Phase.answering, Phase.voting, Phase.done] ∧
    Option.map Prod.fst (runRoundBody baseState 1 c10Env).voteInputs =
      some "[no answer]" := by
  have h := (c7_answer_exhaustion_not_fatal baseState 1 c10Env false
    "api down" "a sufficiently long prompt" rfl rfl rfl (fun _ => rfl)
    rfl rfl rfl).1
  obtain ⟨rf, _, _, _, _, _, hphases, hfst, _⟩ := h
  exact ⟨hphases, hfst rfl⟩

/-- A list of pure rerender events contains no archive call. -/
theorem saveEvents_rerenders_only (evs : List Event)
    (h : ∀ e ∈ evs, e = Event.rerender) : saveEvents evs = [] := by
  induction evs with
  | nil => rfl
  | cons e t ih =>
    have he := h e (List.mem_cons_self e t)
    subst he
    simp only [saveEvents, List.filterMap_cons]
    exact ih fun x hx => h x (List.mem_cons_of_mem _ hx)

/-- The answer phase emits only rerender events (never an archive call). -/
theorem answerPhase_events_rerender (gSnap : Nat) (env : RoundEnv)
    (round : RoundState) :
    ∀ e ∈ (answerPhaseRun gSnap env round).2, e = Event.rerender := by
  intro e he
  simp only [answerPhaseRun, List.mem_append, List.mem_singleton] at he
  rcases he with (h | h) | h
  · exact h
  · split at h
    · simpa using h
    · simp at h
  · split at h
    · simpa using h
    · simp at h

/-- The voting phase emits only rerender events (never an archive call). -/
theorem votePhase_events_rerender (gSnap : Nat) (env : RoundEnv)
    (roles : Roles) (answerA answerB : String) (round : RoundState) :
    ∀ e ∈ (votePhaseRun gSnap env roles answerA answerB round).2,
      e = Event.rerender := by
  intro e he
  simp only [votePhaseRun, List.mem_append, List.mem_singleton,
    List.mem_filterMap] at he
  rcases he with h | ⟨a, _, hfa⟩
  · exact h
  · split at hfa
    · simpa using hfa.symm
    · simp at hfa

/-- C1: stale-generation settlements commit nothing.  (a) A prompt
settlement observing a changed generation leaves the round record
untouched, appends nothing to history, changes no standings entry,
archives nothing and emits no further rerender.  (b)/(c) An answer- or
vote-task settlement observing a changed generation leaves its record
unchanged and does not rerender.  (d)/(e)/(f) A generation change observed
at the answer-join, vote-join or post-delay checkpoint prevents any
archive call and any history append (and, before the tally, any standings
change).  (g) The admin reset strictly increments the generation counter,
so every snapshot taken before it mismatches afterwards. -/
theorem c1_stale_generation_no_commit :
    (∀ (st : GameState) (r : Nat) (env : RoundEnv),
      env.gAfterPrompt ≠ st.generation →
      (runRoundBody st r env).state.completed = st.completed ∧
      (∀ n, (runRoundBody st r env).state.scores n = st.scores n) ∧
      (runRoundBody st r env).state.active =
        some (initRound r (assignRoles MODELS env.js) env.startTime) ∧
      (runRoundBody st r env).events = [Event.rerender]) ∧
    (∀ (gSnap gStart : Nat) (attempts : Nat → AttemptResult String)
        (gSettle finishTime : Nat) (task : TaskInfo),
      gSettle ≠ gSnap →
      answerTaskRun gSnap gStart attempts gSettle finishTime task =
        (task, false)) ∧
    (∀ (gSnap gStart : Nat) (contA contB : Model)
        (answerA answerB : String) (ve : VoteEnv) (vote : VoteInfo),
      ve.gSettle ≠ gSnap →
      voteTaskRun gSnap gStart contA contB answerA answerB ve vote =
        (vote, false)) ∧
    (∀ (st : GameState) (r : Nat) (env : RoundEnv) (p : String),
      (withRetry env.promptAttempts (fun s => isRealString s 10)
          jsonSlice100 3).result = .ok p →
      env.gAfterPrompt = st.generation →
      env.gAfterAnswers ≠ st.generation →
      (runRoundBody st r env).state.completed = st.completed ∧
      (∀ n, (runRoundBody st r env).state.scores n = st.scores n) ∧
      saveEvents (runRoundBody st r env).events = []) ∧
    (∀ (st : GameState) (r : Nat) (env : RoundEnv) (p : String),
      (withRetry env.promptAttempts (fun s => isRealString s 10)
          jsonSlice100 3).result = .ok p →
      env.gAfterPrompt = st.generation →
      env.gAfterAnswers = st.generation →
      env.gAfterVotes ≠ st.generation →
      (runRoundBody st r env).state.completed = st.completed ∧
      (∀ n, (runRoundBody st r env).state.scores n = st.scores n) ∧
      saveEvents (runRoundBody st r env).events = []) ∧
    (∀ (st : GameState) (r : Nat) (env : RoundEnv) (p : String),
      (withRetry env.promptAttempts (fun s => isRealString s 10)
          jsonSlice100 3).result = .ok p →
      env.gAfterPrompt = st.generation →
      env.gAfterAnswers = st.generation →
      env.gAfterVotes = st.generation →
      env.gAfterDelay ≠ st.generation →
      (runRoundBody st r env).state.completed = st.completed ∧
      saveEvents (runRoundBody st r env).events = []) ∧
    (∀ st : GameState,
      (adminReset st).generation = st.generation + 1) := by
  refine ⟨?_, ?_, ?_, ?_, ?_, ?_, fun st => rfl⟩
  · intro st r env hst
    simp only [runRoundBody]
    cases hres : (withRetry env.promptAttempts (fun s => isRealString s 10)
        jsonSlice100 3).result <;>
      simp [promptSettle, hst]
  · intro gSnap gStart attempts gSettle finishTime task hst
    simp only [answerTaskRun]
    by_cases hgs : gStart ≠ gSnap
    · simp [hgs]
    · cases hres : (withRetry attempts (fun s => isRealString s 3)
          jsonSlice100 3).result <;>
        simp [hgs, hst, hres]
  · intro gSnap gStart contA contB answerA answerB ve vote hst
    simp only [voteTaskRun]
    by_cases hgs : gStart ≠ gSnap
    · simp [hgs]
    · cases hres : (withRetry ve.attempts
          (fun v => v == Choice.A || v == Choice.B) choiceJson 3).result <;>
        simp [hgs, hst, hres]
  · intro st r env p hok hg1 hstale
    simp only [runRoundBody]
    rw [hok]
    simp only [promptSettle, hg1, ne_eq, not_true_eq_false, if_false]
    rw [if_pos hstale]
    refine ⟨rfl, fun n => rfl, ?_⟩
    apply saveEvents_rerenders_only
    intro e he
    simp only [List.mem_append, List.mem_cons, List.not_mem_nil,
      or_false] at he
    rcases he with (h | h) | h
    · exact h
    · exact h
    · exact answerPhase_events_rerender _ _ _ e h
  · intro st r env p hok hg1 hg2 hstale
    simp only [runRoundBody]
    rw [hok]
    simp only [promptSettle, hg1, ne_eq, not_true_eq_false, if_false]
    simp only [hg2, ne_eq, not_true_eq_false, if_false]
    rw [if_pos hstale]
    refine ⟨rfl, fun n => rfl, ?_⟩
    apply saveEvents_rerenders_only
    intro e he
    simp only [List.mem_append, List.mem_cons, List.not_mem_nil,
      or_false] at he
    rcases he with ((h | h) | h) | h
    · exact h
    · exact h
    · exact answerPhase_events_rerender _ _ _ e h
    · exact votePhase_events_rerender _ _ _ _ _ _ e h
  · intro st r env p hok hg1 hg2 hg3 hstale
    simp only [runRoundBody]
    rw [hok]
    simp only [promptSettle, hg1, ne_eq, not_true_eq_false, if_false]
    simp only [hg2, hg3, ne_eq, not_true_eq_false, if_false]
    rw [if_pos hstale]
    refine ⟨rfl, ?_⟩
    apply saveEvents_rerenders_only
    intro e he
    simp only [List.mem_append, List.mem_cons, List.not_mem_nil,
      or_false] at he
    rcases he with (((h | h) | h) | h) | h
    · exact h
    · exact h
    · exact answerPhase_events_rerender _ _ _ e h
    · exact votePhase_events_rerender _ _ _ _ _ _ e h
    · exact h

/-- A fresh answer-task record used by the C1 witness. -/
def witTask : TaskInfo :=
  { model := dummyModel, startedAt := 0, finishedAt := none,
    result := none, error := none }

/-- A fresh vote record used by the C1 witness. -/
def witVote : VoteInfo :=
  { voter := dummyModel, startedAt := 0, finishedAt := none,
    votedFor := none, error := none }

/-- Environment with the generation changing during the prompt call. -/
def envStaleA : RoundEnv := { envAllOk with gAfterPrompt := 1 }

/-- Environment with the generation changing during the answer phase. -/
def envStaleD : RoundEnv := { envAllOk with gAfterAnswers := 1 }

/-- Environment with the generation changing during the voting phase. -/
def envStaleE : RoundEnv := { envAllOk with gAfterVotes := 1 }

/-- Environment with the generation changing during the display delay. -/
def envStaleF : RoundEnv := { envAllOk with gAfterDelay := 1 }

set_option maxRecDepth 8000 in
/-- Witness for C1 at concrete stale-generation environments. -/
theorem c1_stale_generation_no_commit_witness :
    (runRoundBody baseState 1 envStaleA).events = [Event.rerender] ∧
    answerTaskRun 0 0 (fun _ => AttemptResult.returned "some answer") 1 5
      witTask = (witTask, false) ∧
    voteTaskRun 0 0 dummyModel dummyModel "a" "b"
      ⟨true, fun _ => .returned Choice.A, 1, 5⟩ witVote =
      (witVote, false) ∧
    ((runRoundBody baseState 1 envStaleD).state.completed =
        baseState.completed ∧
      saveEvents (runRoundBody baseState 1 envStaleD).events = []) ∧
    saveEvents (runRoundBody baseState 1 envStaleE).events = [] ∧
    saveEvents (runRoundBody baseState 1 envStaleF).events = [] ∧
    (adminReset baseState).generation = baseState.generation + 1 := by
  have h := c1_stale_generation_no_commit
  refine ⟨(h.1 baseState 1 envStaleA (by decide)).2.2.2,
    h.2.1 0 0 _ 1 5 witTask (by decide),
    h.2.2.1 0 0 dummyModel dummyModel "a" "b" _ witVote (by decide),
    ?_, ?_, ?_, h.2.2.2.2.2.2 baseState⟩
  · have hd := h.2.2.2.1 baseState 1 envStaleD
      "a sufficiently long prompt" rfl rfl (by decide)
    exact ⟨hd.1, hd.2.2⟩
  · exact (h.2.2.2.2.1 baseState 1 envStaleE
      "a sufficiently long prompt" rfl rfl rfl (by decide)).2.2
  · exact (h.2.2.2.2.2.1 baseState 1 envStaleF
      "a sufficiently long prompt" rfl rfl rfl rfl (by decide)).2
